import Mathlib

/-!
Embedding cache, cosine similarity and chart rendering of `src/index.js`.

A shallow embedding of the module `src/index.js`.

* JavaScript strings are lists of UTF-16 code units (`JSString`).
* A 32-bit float is represented by its IEEE-754 binary32 bit pattern, a natural number
  below `2 ^ 32`; a `Float32Array` is a list of such words and a `Buffer` a list of bytes.
  The `ArrayBuffer` behind a Buffer read from a file is modelled separately (`arrayBufferOf`):
  for an empty file it is a 64 KiB allocation of uninitialised memory.
* The data directory is a map from file name to file content, threaded through the
  asynchronous functions together with two ghost fields: the number of calls made to the
  embeddings API and the log of file names handed to `writeEmbeddingFile`.
* An awaited promise either resolves, rejects or never settles (`Outcome`).
* The numeric functions (`cosine_similarity`, `rangeToRange`, `graph`) are written over an
  arbitrary ordered field `R`; a division whose divisor is zero has no value in `R`
  (JavaScript yields `NaN` or an infinity) and is `none`.
* Library functions that are not part of the repository (`path.join`, `toLowerCase`, the
  tokenizer, the conversion of a number to binary32, the embeddings API, `Math.sqrt`,
  `measureText`) are parameters.
-/

namespace Embedding

/-! ## Strings and errors -/

/-- A JavaScript string: its sequence of UTF-16 code units. -/
abbrev JSString := List Nat

/-- The code units of a literal (all literals of the module are ASCII). -/
def js (s : String) : JSString := s.toList.map Char.toNat

/-- Values thrown or used as rejection reasons. -/
inductive JSError where
  | error (message : String)
  | rangeError
  | typeError
  | api (code : Nat)
  | system (code : String)
  deriving DecidableEq, Repr

/-- What `await p` observes of a promise `p`. -/
inductive Outcome (α : Type) where
  | resolved (value : α)
  | rejected (reason : JSError)
  | pending
  deriving DecidableEq, Repr

/-! ## Helpers (lines 33-44) -/

def MODEL : JSString := js "text-embedding-ada-002"
def MAX_TOKENS : Nat := 8191
def EMBEDDING_SIZE : Nat := 1536
def DATA_DIR : JSString := js "./data"

/-- One element of `response.data`: only the `embedding` field is used. -/
structure DataItem (Num : Type) where
  embedding : List Num

/-- The response of `GPTClient.embeddings.create`; `usage` is destructured but unused. -/
structure Response (Num : Type) where
  data : List (DataItem Num)

/-- The library functions the cache code calls. `embeddingsCreate n model input` is the
outcome of the `n`-th call (counting from zero) made to the embeddings API. -/
structure Env (Num : Type) where
  pathJoin : JSString → JSString → JSString
  toLowerCase : JSString → JSString
  encode : JSString → JSString → List Nat
  fround : Num → Nat
  embeddingsCreate : Nat → JSString → JSString → Outcome (Response Num)

/-- The data directory, the ghost counters, and the content of the memory that
`Buffer.allocUnsafeSlow` hands out without initialising it (`uninitialised i` is the byte at
offset `i`, taken modulo 256; nothing is assumed about it). -/
structure World where
  files : JSString → Option (List Nat)
  providerCalls : Nat
  written : List JSString
  uninitialised : Nat → Nat

def toTokens {Num : Type} (env : Env Num) (string : JSString) (model : JSString := MODEL) :
    List Nat :=
  env.encode string model

/-- The function `exists`: `fs.stat` succeeds exactly when the path is present. -/
def «exists» (filename : JSString) (w : World) : Bool :=
  (w.files filename).isSome

/-- The effect of `fs.writeFile(filename, buffer)` on the data directory. -/
def writeFile (filename : JSString) (buffer : List Nat) (w : World) : World :=
  { w with files := fun f => if f = filename then some buffer else w.files f }

/-! ## The binary cache format (lines 74-91) -/

/-- The four bytes of a binary32 word, least significant first. -/
def float32Bytes (word : Nat) : List Nat :=
  [word % 256, word / 256 % 256, word / 65536 % 256, word / 16777216 % 256]

/-- The bytes of the buffer behind a `Float32Array`: `Buffer.from(data.buffer)`. -/
def bufferFrom : List Nat → List Nat
  | [] => []
  | word :: rest => float32Bytes word ++ bufferFrom rest

/-- The elements seen through a `Float32Array` view of a buffer whose length is a multiple
of four. -/
def float32Words : List Nat → List Nat
  | b0 :: b1 :: b2 :: b3 :: rest =>
    (b0 + 256 * b1 + 65536 * b2 + 16777216 * b3) :: float32Words rest
  | _ => []

/-- The constructor `new Float32Array(arrayBuffer)`: it throws a `RangeError` (`none`) when the byte
length is not a multiple of four. -/
def float32ArrayOfBuffer (buffer : List Nat) : Option (List Nat) :=
  if buffer.length % 4 = 0 then some (float32Words buffer) else none

/-- The constructor `new Float32Array(embedding)` on an array of numbers. -/
def float32ArrayOfNumbers {Num : Type} (env : Env Num) (embedding : List Num) : List Nat :=
  embedding.map env.fround

/-- The function `writeEmbeddingFile`: converts to binary32, takes the underlying bytes and writes them. -/
def writeEmbeddingFile {Num : Type} (env : Env Num) (filename : JSString)
    (embedding : List Num) (w : World) : Outcome Unit × World :=
  let data := float32ArrayOfNumbers env embedding
  let buffer := bufferFrom data
  (Outcome.resolved (), { writeFile filename buffer w with written := w.written ++ [filename] })

/-- The size of the buffer `fs.readFile` allocates for a file whose size is reported as zero. -/
def kReadFileUnknownBufferLength : Nat := 65536

/-- The `ArrayBuffer` behind the Buffer that `fs.readFile` resolves with, which is what
`data.buffer` denotes. For a file with content the buffer is allocated with exactly the size
of the file and holds its bytes. For a file of zero bytes a buffer of
`kReadFileUnknownBufferLength` bytes is allocated and the Buffer returned is a view of length
zero of it: `data.buffer` is then the whole allocation, whose bytes were never written. -/
def arrayBufferOf (w : World) (content : List Nat) : List Nat :=
  if content.length = 0 then
    (List.range kReadFileUnknownBufferLength).map fun i => w.uninitialised i % 256
  else content

/-- The function `readEmbeddingFile`: the typed array is built over `data.buffer`, the whole
`ArrayBuffer` behind the Buffer read, not over the Buffer's own bytes. A failed `fs.readFile`
rejects the promise. A `RangeError` thrown by the typed-array constructor is raised inside the
`async` executor, where it rejects the executor's own promise and not the one returned: that
one never settles. -/
def readEmbeddingFile (filename : JSString) (w : World) : Outcome (List Nat) :=
  match w.files filename with
  | none => Outcome.rejected (JSError.system "ENOENT")
  | some data =>
    match float32ArrayOfBuffer (arrayBufferOf w data) with
    | some array => Outcome.resolved array
    | none => Outcome.pending

/-! ## `createEmbedding` (lines 99-123) -/

/-- The third argument of `createEmbedding` as the caller passes it. -/
inductive NameArg where
  | undefined
  | null
  | string (s : JSString)
  deriving DecidableEq, Repr

/-- The value `createEmbedding` returns: the API's array of numbers on a miss, a
`Float32Array` on a hit. -/
inductive Vector (Num : Type) where
  | array (numbers : List Num)
  | float32Array (words : List Nat)
  deriving DecidableEq, Repr

/-- The class `\s` of a JavaScript regular expression. -/
def isWhiteSpace (c : Nat) : Bool :=
  c = 9 || c = 10 || c = 11 || c = 12 || c = 13 || c = 32 || c = 160 || c = 5760 ||
  (8192 ≤ c && c ≤ 8202) || c = 8232 || c = 8233 || c = 8239 || c = 8287 || c = 12288 ||
  c = 65279

/-- The call `input.replace(/\s/g, '_')`: every match of the one-character pattern is replaced. -/
def replaceWhiteSpace : JSString → JSString
  | [] => []
  | c :: rest => (if isWhiteSpace c then 95 else c) :: replaceWhiteSpace rest

/-- The default value of the parameter `name`. -/
def defaultName {Num : Type} (env : Env Num) (input : JSString) : JSString :=
  (env.toLowerCase (replaceWhiteSpace input)).take 20

/-- The value bound to `name` in the body: `none` is `null`. -/
def bindName {Num : Type} (env : Env Num) (input : JSString) : NameArg → Option JSString
  | NameArg.undefined => some (defaultName env input)
  | NameArg.null => none
  | NameArg.string s => some s

/-- Truthiness of `name`: `null` and the empty string are falsy. -/
def truthy : Option JSString → Bool
  | none => false
  | some s => !s.isEmpty

/-- The expression `name + '.dat'`. -/
def datName : Option JSString → JSString
  | none => js "null.dat"
  | some s => s ++ js ".dat"

/-- The path of the cache file of a name. -/
def cacheFile {Num : Type} (env : Env Num) (name : Option JSString) : JSString :=
  env.pathJoin DATA_DIR (datName name)

def createEmbedding {Num : Type} (env : Env Num) (input : JSString) (model : JSString)
    (nameArg : NameArg) (w : World) : Outcome (Vector Num) × World :=
  let name := bindName env input nameArg
  let filename := cacheFile env name
  if truthy name && «exists» filename w then
    match readEmbeddingFile filename w with
    | Outcome.resolved array => (Outcome.resolved (Vector.float32Array array), w)
    | Outcome.rejected e => (Outcome.rejected e, w)
    | Outcome.pending => (Outcome.pending, w)
  else if (toTokens env input).length > MAX_TOKENS then
    (Outcome.rejected (JSError.error "max tokens exceeded"), w)
  else
    let w1 := { w with providerCalls := w.providerCalls + 1 }
    match env.embeddingsCreate w.providerCalls model input with
    | Outcome.rejected e => (Outcome.rejected e, w1)
    | Outcome.pending => (Outcome.pending, w1)
    | Outcome.resolved response =>
      match response.data with
      | [] => (Outcome.rejected JSError.typeError, w1)
      | item :: _ =>
        if truthy name then
          match writeEmbeddingFile env filename item.embedding w1 with
          | (Outcome.resolved _, w2) => (Outcome.resolved (Vector.array item.embedding), w2)
          | (Outcome.rejected e, w2) => (Outcome.rejected e, w2)
          | (Outcome.pending, w2) => (Outcome.pending, w2)
        else
          (Outcome.resolved (Vector.array item.embedding), w1)

/-! ## Cosine similarity (lines 131-140) -/

section Numeric

variable {R : Type}

/-- The quotient `a / b` of two numbers: no value in the field when the divisor is zero. -/
def divide [Field R] [DecidableEq R] (a b : R) : Option R :=
  if b = 0 then none else some (a / b)

/-- Entry `(0, 0)` of `matrix1.mmul(matrix2.transpose())` for the one-row matrices `[vec1]`
and `[vec2]` of equal width: the products are accumulated from left to right, from `0`. -/
def mmulTranspose [Field R] (vec1 vec2 : List R) : R :=
  (List.zipWith (fun a b => a * b) vec1 vec2).foldl (fun s t => s + t) 0

def cosine_similarity [Field R] [DecidableEq R] (sqrt : R → R) (vec1 vec2 : List R) :
    Option R :=
  let dotProduct := mmulTranspose vec1 vec2
  let normVec1 := sqrt (mmulTranspose vec1 vec1)
  let normVec2 := sqrt (mmulTranspose vec2 vec2)
  divide dotProduct (normVec1 * normVec2)

/-! ## Chart rendering (lines 170-285) -/

def rangeToRange [Field R] [DecidableEq R] (value fromMin toMin fromMax toMax : R) :
    Option R :=
  (divide ((value - fromMin) * (toMax - toMin)) (fromMax - fromMin)).map fun q => q + toMin

/-- The second argument of `graph`, with its defaults. -/
structure Settings (R : Type) [Field R] where
  width : R := 600
  height : R := 400
  scale : R := 2
  type : JSString := js "scatter"
  header : Option JSString := none
  name : JSString := js "test.jpg"
  background : JSString := js "#ffffff"
  color : JSString := js "#005379"
  radius : R := 5

/-- One element `[x, y, c, text]` of `data`. -/
structure Datum (R : Type) where
  x : R
  y : R
  c : Option JSString := none
  text : Option JSString := none

/-- A pixel position; a coordinate is `none` when its computation divided by zero. -/
structure Point (R : Type) where
  x : Option R
  y : Option R
  deriving DecidableEq

/-- The calls and property assignments made on the 2d context, in order. -/
inductive Op (R : Type) where
  | fillStyle (style : JSString)
  | globalAlpha (alpha : R)
  | lineWidth (width : R)
  | textAlign (value : JSString)
  | textBaseline (value : JSString)
  | font (px : R)
  | fillRect (x y w h : R)
  | beginPath
  | closePath
  | fill
  | stroke
  | arc (x y : Option R) (radius startAngle endAngle : R)
  | moveTo (x y : Option R)
  | lineTo (x y : Option R)
  | fillText (text : JSString) (x y : Option R)
  deriving DecidableEq

/-- The library values `graph` relies on. -/
structure CanvasLib (R : Type) where
  PI : R
  measureText : R → JSString → R
  toBuffer : List (Op R) → List Nat
  pathJoin : JSString → JSString → JSString

/-- The call `Math.max(...values)`; on no argument the result is `-Infinity`, which is `none`. -/
def mathMax [LinearOrder R] : List R → Option R
  | [] => none
  | v :: rest => some (rest.foldl max v)

/-- The call `Math.min(...values)`; on no argument the result is `Infinity`, which is `none`. -/
def mathMin [LinearOrder R] : List R → Option R
  | [] => none
  | v :: rest => some (rest.foldl min v)

/-- The value `padding` of `graph`. -/
def padding [Field R] : R := 20

/-- The expression `(rangeToRange(value, fromMin, padding, fromMax, toMax) + offset) * scale` with
`offset = 0`, for a minimum and a maximum that may be infinite. -/
def pixel [Field R] [DecidableEq R] (value : R) (fromMin fromMax : Option R) (toMax scale : R) :
    Option R :=
  match fromMin, fromMax with
  | some lo, some hi => (rangeToRange value lo padding hi toMax).map fun p => (p + 0) * scale
  | _, _ => none

/-- The point computed at the top of the body of the first loop. -/
def dataPoint [LinearOrderedField R] (s : Settings R) (data : List (Datum R)) (d : Datum R) :
    Point R :=
  { x := pixel d.x (mathMin (data.map fun p => p.x)) (mathMax (data.map fun p => p.x))
      (s.width - padding * 2) s.scale
    y := pixel d.y (mathMin (data.map fun p => p.y)) (mathMax (data.map fun p => p.y))
      (s.height - padding * 2) s.scale }

/-- The x pixel of index `i` in line mode. -/
def indexPixel [LinearOrderedField R] (s : Settings R) (data : List (Datum R)) (i : Nat) :
    Option R :=
  (rangeToRange (i : R) 0 padding (data.length : R) (s.width - padding * 2)).map
    fun p => (p + 0) * s.scale

/-- The point of index `i` in line mode (both loops compute it). -/
def linePoint [LinearOrderedField R] (s : Settings R) (data : List (Datum R)) (i : Nat)
    (d : Datum R) : Point R :=
  { x := indexPixel s data i, y := (dataPoint s data d).y }

/-- The expression `c || color`. -/
def styleOf [Field R] (s : Settings R) (d : Datum R) : JSString :=
  if truthy d.c then d.c.getD [] else s.color

/-- The label drawn beside a scatter point (lines 218-236). -/
def labelOps [LinearOrderedField R] (lib : CanvasLib R) (s : Settings R) (point : Point R)
    (text : JSString) : List (Op R) :=
  let width := lib.measureText (12 * s.scale) text
  let x := point.x.map fun px => px + (s.radius + 2) * s.scale
  let y := point.y
  let overflow : Bool :=
    match x with
    | some v => decide (v + width ≥ s.width * s.scale)
    | none => false
  [Op.globalAlpha 1, Op.textAlign (js "left"), Op.fillStyle (js "#000000"),
    Op.textBaseline (js "middle"), Op.font (12 * s.scale)] ++
  (if overflow then
    [Op.textBaseline (js "bottom"),
      Op.fillText text (point.x.map fun px => px - width / 2)
        (point.y.map fun py => py - (s.radius + 2) * s.scale)]
  else [Op.fillText text x y])

/-- The first loop (lines 201-251), from index `i` on, over the remaining elements. -/
def firstLoop [LinearOrderedField R] (lib : CanvasLib R) (s : Settings R)
    (data : List (Datum R)) : Nat → List (Datum R) → Option (Point R) → List (Op R)
  | _, [], _ => []
  | i, d :: rest, lastPoint =>
    let point := dataPoint s data d
    let start := [Op.fillStyle (styleOf s d), Op.globalAlpha (8 / 10)]
    if s.type = js "scatter" then
      start ++
      [Op.beginPath, Op.arc point.x point.y (s.radius * s.scale) 0 (lib.PI * 2), Op.closePath,
        Op.fill] ++
      (if truthy d.text then labelOps lib s point (d.text.getD []) else []) ++
      firstLoop lib s data (i + 1) rest (some point)
    else if s.type = js "line" then
      let point := linePoint s data i d
      start ++
      (if 0 < i && lastPoint.isSome then
        [Op.globalAlpha 1, Op.beginPath, Op.moveTo point.x point.y,
          Op.lineTo ((lastPoint.getD point).x) ((lastPoint.getD point).y), Op.closePath,
          Op.lineWidth (s.radius * (75 / 100) * s.scale), Op.stroke]
      else []) ++
      firstLoop lib s data (i + 1) rest (some point)
    else
      start ++ firstLoop lib s data (i + 1) rest (some point)

/-- The second loop (lines 255-267), run in line mode only: the dots. -/
def secondLoop [LinearOrderedField R] (lib : CanvasLib R) (s : Settings R)
    (data : List (Datum R)) : Nat → List (Datum R) → List (Op R)
  | _, [] => []
  | i, d :: rest =>
    let point := linePoint s data i d
    [Op.fillStyle (styleOf s d), Op.globalAlpha 1, Op.beginPath,
      Op.arc point.x point.y s.radius 0 (lib.PI * 2), Op.closePath, Op.fill] ++
    secondLoop lib s data (i + 1) rest

/-- Everything `graph` does to the context, in order. -/
def graphCanvas [LinearOrderedField R] (lib : CanvasLib R) (data : List (Datum R))
    (s : Settings R) : List (Op R) :=
  [Op.fillStyle s.background, Op.fillRect 0 0 (s.width * s.scale) (s.height * s.scale)] ++
  firstLoop lib s data 0 data none ++
  (if s.type = js "line" then secondLoop lib s data 0 data else []) ++
  (if truthy s.header then
    [Op.globalAlpha 1, Op.textAlign (js "left"), Op.fillStyle (js "#000000"),
      Op.textBaseline (js "top"), Op.font (20 * s.scale),
      Op.fillText (s.header.getD []) (some padding) (some padding)]
  else [])

/-- The value `graph` returns, with the canvas it drew. -/
structure GraphResult (R : Type) where
  filename : JSString
  buffer : List Nat
  canvas : List (Op R)

def graph [LinearOrderedField R] (lib : CanvasLib R) (data : List (Datum R))
    (s : Settings R) (w : World) : Outcome (GraphResult R) × World :=
  let canvas := graphCanvas lib data s
  let filename := lib.pathJoin DATA_DIR s.name
  let buffer := lib.toBuffer canvas
  (Outcome.resolved { filename := filename, buffer := buffer, canvas := canvas },
    writeFile filename buffer w)

end Numeric

/-! ## Concrete collaborators used to evaluate the model -/

/-- Lower-casing of the ASCII letters. -/
def asciiLower (s : JSString) : JSString :=
  s.map fun c => if 65 ≤ c ∧ c ≤ 90 then c + 32 else c

/-- A stub environment: numbers are binary32 words already, one token per code unit, and
the API answers the `n`-th call with the one-element vector `[n]`. -/
def stubEnv : Env Nat where
  pathJoin := fun dir file => dir.drop 2 ++ js "/" ++ file
  toLowerCase := asciiLower
  encode := fun string _ => string
  fround := fun x => x
  embeddingsCreate := fun n _ _ => Outcome.resolved { data := [{ embedding := [n] }] }

/-- An empty data directory; fresh memory happens to be zeroed. -/
def emptyWorld : World where
  files := fun _ => none
  providerCalls := 0
  written := []
  uninitialised := fun _ => 0

/-- A data directory holding the single file `data/k.dat` with the given content. -/
def oneFileWorld (content : List Nat) : World where
  files := fun f => if f = js "data/k.dat" then some content else none
  providerCalls := 0
  written := []
  uninitialised := fun _ => 0

/-- A stub canvas library over the rationals: every text is 10 pixels wide per code unit. -/
def stubCanvas : CanvasLib ℚ where
  PI := 22 / 7
  measureText := fun _ text => 10 * text.length
  toBuffer := fun ops => [ops.length]
  pathJoin := fun dir file => dir.drop 2 ++ js "/" ++ file

/-- The key derivation as the specification words it: every maximal run of whitespace
becomes a single underscore, then lower-casing, then the first 20 code units. The flag
records whether the previous code unit was whitespace. -/
def collapseWhiteSpace : Bool → JSString → JSString
  | _, [] => []
  | inRun, c :: rest =>
    if isWhiteSpace c then
      if inRun then collapseWhiteSpace true rest else 95 :: collapseWhiteSpace true rest
    else c :: collapseWhiteSpace false rest

/-- The default key according to the specification's wording. -/
def specDefaultName {Num : Type} (env : Env Num) (input : JSString) : JSString :=
  (env.toLowerCase (collapseWhiteSpace false input)).take 20

/-! ## Observations on the list of canvas operations -/

section Observations

variable {R : Type}

/-- The centres of the circles added to the path, in order. -/
def arcCentres (ops : List (Op R)) : List (Point R) :=
  ops.filterMap fun op =>
    match op with
    | Op.arc x y _ _ _ => some { x := x, y := y }
    | _ => none

/-- The targets of the `moveTo` calls, in order. -/
def moveTargets (ops : List (Op R)) : List (Point R) :=
  ops.filterMap fun op =>
    match op with
    | Op.moveTo x y => some { x := x, y := y }
    | _ => none

/-- The targets of the `lineTo` calls, in order. -/
def lineTargets (ops : List (Op R)) : List (Point R) :=
  ops.filterMap fun op =>
    match op with
    | Op.lineTo x y => some { x := x, y := y }
    | _ => none

/-- The pixel positions of the points in line mode, from index `i` on. -/
def linePointsFrom [LinearOrderedField R] (s : Settings R) (data : List (Datum R)) (i : Nat)
    (rest : List (Datum R)) : List (Point R) :=
  (rest.enumFrom i).map fun p => linePoint s data p.1 p.2

/-- The pixel positions of all points in line mode. -/
def linePoints [LinearOrderedField R] (s : Settings R) (data : List (Datum R)) :
    List (Point R) :=
  linePointsFrom s data 0 data

end Observations

/-! ## Lemmas on the binary format and on cache hits -/

theorem length_bufferFrom (words : List Nat) : (bufferFrom words).length = words.length * 4 := by
  induction words with
  | nil => rfl
  | cons word rest ih => simp [bufferFrom, float32Bytes, ih]; omega

theorem float32Words_bufferFrom (words : List Nat) (h : ∀ x ∈ words, x < 2 ^ 32) :
    float32Words (bufferFrom words) = words := by
  induction words with
  | nil => rfl
  | cons word rest ih =>
    have hw : word < 2 ^ 32 := h word (List.mem_cons_self _ _)
    have hr : float32Words (bufferFrom rest) = rest :=
      ih fun x hx => h x (List.mem_cons_of_mem _ hx)
    simp only [bufferFrom, float32Bytes, List.cons_append, List.nil_append, float32Words, hr]
    congr 1
    omega

theorem float32ArrayOfBuffer_bufferFrom (words : List Nat) :
    float32ArrayOfBuffer (bufferFrom words) = some (float32Words (bufferFrom words)) := by
  simp [float32ArrayOfBuffer, length_bufferFrom]

theorem length_float32Words (buffer : List Nat) :
    (float32Words buffer).length = buffer.length / 4 := by
  induction buffer using float32Words.induct with
  | case1 b0 b1 b2 b3 rest ih =>
    simp only [float32Words, List.length_cons, ih]
    omega
  | case2 buffer h =>
    have hshort : buffer.length < 4 := by
      match buffer, h with
      | [], _ => simp
      | [_], _ => simp
      | [_, _], _ => simp
      | [_, _, _], _ => simp
      | b0 :: b1 :: b2 :: b3 :: rest, h => exact absurd rfl (h b0 b1 b2 b3 rest)
    rw [float32Words]
    · simp; omega
    · exact h

theorem arrayBufferOf_of_ne_nil (w : World) (content : List Nat) (h : content ≠ []) :
    arrayBufferOf w content = content := by
  have : content.length ≠ 0 := fun e => h (List.length_eq_zero.mp e)
  simp [arrayBufferOf, this]

theorem length_arrayBufferOf_nil (w : World) :
    (arrayBufferOf w []).length = kReadFileUnknownBufferLength := by
  simp [arrayBufferOf]

theorem float32ArrayOfBuffer_of_mod (buffer : List Nat) (h : buffer.length % 4 = 0) :
    float32ArrayOfBuffer buffer = some (float32Words buffer) := if_pos h

theorem readEmbeddingFile_of_file (filename : JSString) (w : World) (data : List Nat)
    (hfile : w.files filename = some data) :
    readEmbeddingFile filename w =
      match float32ArrayOfBuffer (arrayBufferOf w data) with
      | some array => Outcome.resolved array
      | none => Outcome.pending := by
  unfold readEmbeddingFile
  rw [hfile]

/-- Reading a file of zero bytes resolves to the 16384 words of the fresh allocation. -/
theorem readEmbeddingFile_of_empty (filename : JSString) (w : World)
    (hfile : w.files filename = some []) :
    ∃ words, readEmbeddingFile filename w = Outcome.resolved words ∧ words.length = 16384 := by
  have hlen : (arrayBufferOf w []).length = 65536 := length_arrayBufferOf_nil w
  have hmod : (arrayBufferOf w []).length % 4 = 0 := by rw [hlen]
  refine ⟨float32Words (arrayBufferOf w []), ?_, ?_⟩
  · rw [readEmbeddingFile_of_file filename w [] hfile, float32ArrayOfBuffer_of_mod _ hmod]
  · rw [length_float32Words, hlen]

/-- Reading a file with content resolves to the words decoded from it when its length is a
multiple of four, and never settles otherwise. -/
theorem readEmbeddingFile_of_ne_nil (filename : JSString) (w : World) (data : List Nat)
    (hfile : w.files filename = some data) (hne : data ≠ []) :
    readEmbeddingFile filename w =
      match float32ArrayOfBuffer data with
      | some array => Outcome.resolved array
      | none => Outcome.pending := by
  simp only [readEmbeddingFile, hfile, arrayBufferOf_of_ne_nil w data hne]

theorem bufferFrom_ne_nil (words : List Nat) (h : words ≠ []) : bufferFrom words ≠ [] := by
  cases words with
  | nil => exact absurd rfl h
  | cons word rest => simp [bufferFrom, float32Bytes]

/-- Byte `4 * i + k` of the buffer is byte `k` of word `i`. -/
theorem bufferFrom_getElem? (words : List Nat) (i : Nat) (word : Nat)
    (h : words[i]? = some word) :
    (bufferFrom words)[4 * i]? = some (word % 256) ∧
    (bufferFrom words)[4 * i + 1]? = some (word / 256 % 256) ∧
    (bufferFrom words)[4 * i + 2]? = some (word / 65536 % 256) ∧
    (bufferFrom words)[4 * i + 3]? = some (word / 16777216 % 256) := by
  induction words generalizing i with
  | nil => simp at h
  | cons first rest ih =>
    cases i with
    | zero =>
      simp at h
      subst h
      simp [bufferFrom, float32Bytes]
    | succ j =>
      simp at h
      have := ih j h
      have e : 4 * (j + 1) = 4 * j + 4 := by ring
      simpa [bufferFrom, float32Bytes, e] using this

/-- A hit leaves the world as it is. -/
theorem createEmbedding_hit {Num : Type} (env : Env Num) (input model : JSString)
    (nameArg : NameArg) (w : World)
    (h : (truthy (bindName env input nameArg) &&
      «exists» (cacheFile env (bindName env input nameArg)) w) = true) :
    createEmbedding env input model nameArg w =
      (match readEmbeddingFile (cacheFile env (bindName env input nameArg)) w with
        | Outcome.resolved array => Outcome.resolved (Vector.float32Array array)
        | Outcome.rejected e => Outcome.rejected e
        | Outcome.pending => Outcome.pending, w) := by
  unfold createEmbedding
  simp only [h, if_true]
  cases readEmbeddingFile (cacheFile env (bindName env input nameArg)) w <;> rfl


/-! ## The binary cache format: claims C5 and C6 -/

/-- Counterexample to claim C5 as stated: for the vector of length 0 a file of zero bytes is
written, and reading it back resolves to a vector of 16384 elements, not to the empty one. -/
theorem writeEmbeddingFile_readEmbeddingFile_empty :
    (writeEmbeddingFile stubEnv (js "data/k.dat") [] emptyWorld).2.files (js "data/k.dat")
      = some [] ∧
    (∃ words,
      readEmbeddingFile (js "data/k.dat")
        (writeEmbeddingFile stubEnv (js "data/k.dat") [] emptyWorld).2
        = Outcome.resolved words ∧ words.length = 16384) ∧
    readEmbeddingFile (js "data/k.dat")
      (writeEmbeddingFile stubEnv (js "data/k.dat") [] emptyWorld).2 ≠ Outcome.resolved [] := by
  have hfile : (writeEmbeddingFile stubEnv (js "data/k.dat") [] emptyWorld).2.files
      (js "data/k.dat") = some [] := by decide
  obtain ⟨words, hread, hlen⟩ := readEmbeddingFile_of_empty _ _ hfile
  refine ⟨hfile, ⟨words, hread, hlen⟩, ?_⟩
  rw [hread]
  intro h
  injection h with h
  rw [h] at hlen
  simp at hlen

/-- Claim C5, amended: round trip of the binary cache format for vectors of length `D ≥ 1`.
For every non-empty vector `v` of 32-bit floats (words below `2 ^ 32` that the conversion to
binary32 leaves unchanged) and every file name, `writeEmbeddingFile` resolves and leaves in
the file the `v.length * 4` bytes of the raw little-endian encoding of `v` (byte `4 * i + k`
is byte `k` of element `i`, least significant first), and `readEmbeddingFile` on the
resulting data directory resolves to `v` itself. -/
theorem writeEmbeddingFile_readEmbeddingFile (env : Env Nat) (filename : JSString)
    (v : List Nat) (w : World)
    (hne : v ≠ [])
    (hfloat : ∀ x ∈ v, env.fround x = x ∧ x < 2 ^ 32) :
    (writeEmbeddingFile env filename v w).1 = Outcome.resolved () ∧
    (writeEmbeddingFile env filename v w).2.files filename = some (bufferFrom v) ∧
    (bufferFrom v).length = v.length * 4 ∧
    (∀ i word, v[i]? = some word →
      (bufferFrom v)[4 * i]? = some (word % 256) ∧
      (bufferFrom v)[4 * i + 1]? = some (word / 256 % 256) ∧
      (bufferFrom v)[4 * i + 2]? = some (word / 65536 % 256) ∧
      (bufferFrom v)[4 * i + 3]? = some (word / 16777216 % 256)) ∧
    readEmbeddingFile filename (writeEmbeddingFile env filename v w).2 = Outcome.resolved v := by
  have hmap : float32ArrayOfNumbers env v = v := by
    unfold float32ArrayOfNumbers
    conv_rhs => rw [← List.map_id v]
    exact List.map_congr_left fun x hx => (hfloat x hx).1
  have hlt : ∀ x ∈ v, x < 2 ^ 32 := fun x hx => (hfloat x hx).2
  have hfile : (writeEmbeddingFile env filename v w).2.files filename = some (bufferFrom v) := by
    simp [writeEmbeddingFile, writeFile, hmap]
  refine ⟨rfl, hfile, length_bufferFrom v, fun i word h => bufferFrom_getElem? v i word h, ?_⟩
  rw [readEmbeddingFile_of_ne_nil filename _ (bufferFrom v) hfile (bufferFrom_ne_nil v hne),
    float32ArrayOfBuffer_bufferFrom, float32Words_bufferFrom v hlt]

/-- Claim C5 (amended) at the vector of the floats 0, 1, -1 and the word of all ones. -/
theorem writeEmbeddingFile_readEmbeddingFile_witness :
    ([0, 1065353216, 3212836864, 4294967295] : List Nat) ≠ [] ∧
    (∀ x ∈ [0, 1065353216, 3212836864, 4294967295],
      stubEnv.fround x = x ∧ x < 2 ^ 32) ∧
    (writeEmbeddingFile stubEnv (js "data/k.dat") [0, 1065353216, 3212836864, 4294967295]
      emptyWorld).2.files (js "data/k.dat") =
      some [0, 0, 0, 0, 0, 0, 128, 63, 0, 0, 128, 191, 255, 255, 255, 255] ∧
    readEmbeddingFile (js "data/k.dat")
      (writeEmbeddingFile stubEnv (js "data/k.dat") [0, 1065353216, 3212836864, 4294967295]
        emptyWorld).2 = Outcome.resolved [0, 1065353216, 3212836864, 4294967295] :=
  have h : ∀ x ∈ [0, 1065353216, 3212836864, 4294967295],
      stubEnv.fround x = x ∧ x < 2 ^ 32 := by decide
  ⟨by decide, h, by decide,
    (writeEmbeddingFile_readEmbeddingFile stubEnv (js "data/k.dat")
      [0, 1065353216, 3212836864, 4294967295] emptyWorld (by decide) h).2.2.2.2⟩

/-- Counterexample to claim C6 as stated: on an existing file of zero bytes
`readEmbeddingFile` does not fail; it resolves to a vector (of 16384 elements). -/
theorem readEmbeddingFile_empty_file :
    (oneFileWorld []).files (js "data/k.dat") = some [] ∧
    (∃ words, readEmbeddingFile (js "data/k.dat") (oneFileWorld [])
      = Outcome.resolved words ∧ words.length = 16384) ∧
    ∀ e, readEmbeddingFile (js "data/k.dat") (oneFileWorld []) ≠ Outcome.rejected e := by
  have hfile : (oneFileWorld []).files (js "data/k.dat") = some [] := by decide
  obtain ⟨words, hread, hlen⟩ := readEmbeddingFile_of_empty _ _ hfile
  refine ⟨hfile, ⟨words, hread, hlen⟩, fun e => ?_⟩
  rw [hread]
  intro h
  cases h

/-- Claim C6, amended: for every stored entry whose byte length is not a multiple of 4,
`readEmbeddingFile` does not return a vector. -/
theorem readEmbeddingFile_malformed (filename : JSString) (w : World) (data : List Nat)
    (hfile : w.files filename = some data) (hlen : data.length % 4 ≠ 0) :
    ∀ v, readEmbeddingFile filename w ≠ Outcome.resolved v := by
  intro v
  have hne : data ≠ [] := by
    intro e
    subst e
    simp at hlen
  rw [readEmbeddingFile_of_ne_nil filename w data hfile hne]
  simp [float32ArrayOfBuffer, hlen]

/-- Claim C6 (amended) at a file of three bytes. -/
theorem readEmbeddingFile_malformed_witness :
    (oneFileWorld [1, 2, 3]).files (js "data/k.dat") = some [1, 2, 3] ∧
    [1, 2, 3].length % 4 ≠ 0 ∧
    ∀ v, readEmbeddingFile (js "data/k.dat") (oneFileWorld [1, 2, 3]) ≠ Outcome.resolved v :=
  ⟨by decide, by decide,
    readEmbeddingFile_malformed (js "data/k.dat") (oneFileWorld [1, 2, 3]) [1, 2, 3]
      (by decide) (by decide)⟩

/-! ## The token limit and the write-once discipline: claims C2 and C3 -/

/-- Counterexample to claim C2 as stated: a text of 8192 tokens whose key already has a cache
file is not rejected; `createEmbedding` returns the cached vector. -/
theorem createEmbedding_long_text_hit :
    (toTokens stubEnv (List.replicate 8192 97)).length > MAX_TOKENS ∧
    (createEmbedding stubEnv (List.replicate 8192 97) MODEL (NameArg.string (js "k"))
      (oneFileWorld [0, 0, 128, 63])).1 = Outcome.resolved (Vector.float32Array [1065353216]) := by
  constructor
  · rw [show toTokens stubEnv (List.replicate 8192 97) = List.replicate 8192 97 from rfl,
      List.length_replicate]
    decide
  · rfl

/-- Claim C2, amended: for every text whose token count exceeds `MAX_TOKENS = 8191`, every data
directory and every key, `createEmbedding` neither calls the embeddings API nor writes a
file (the world is unchanged), and whenever the key is falsy or has no cache file it fails
with the error `max tokens exceeded`. -/
theorem createEmbedding_token_limit {Num : Type} (env : Env Num) (input model : JSString)
    (nameArg : NameArg) (w : World)
    (hlong : (toTokens env input).length > MAX_TOKENS) :
    (createEmbedding env input model nameArg w).2 = w ∧
    ((truthy (bindName env input nameArg) &&
        «exists» (cacheFile env (bindName env input nameArg)) w) = false →
      (createEmbedding env input model nameArg w).1 =
        Outcome.rejected (JSError.error "max tokens exceeded")) := by
  by_cases hhit : (truthy (bindName env input nameArg) &&
      «exists» (cacheFile env (bindName env input nameArg)) w) = true
  · rw [createEmbedding_hit env input model nameArg w hhit]
    exact ⟨rfl, fun h => by simp [h] at hhit⟩
  · have hmiss : (truthy (bindName env input nameArg) &&
        «exists» (cacheFile env (bindName env input nameArg)) w) = false := by
      simpa using hhit
    unfold createEmbedding
    simp [hmiss, hlong]

/-- Claim C2 (amended) at a text of 8192 tokens and an empty data directory. -/
theorem createEmbedding_token_limit_witness :
    (toTokens stubEnv (List.replicate 8192 97)).length > MAX_TOKENS ∧
    (createEmbedding stubEnv (List.replicate 8192 97) MODEL (NameArg.string (js "k"))
      emptyWorld).1 = Outcome.rejected (JSError.error "max tokens exceeded") :=
  have h : (toTokens stubEnv (List.replicate 8192 97)).length > MAX_TOKENS := by
    rw [show toTokens stubEnv (List.replicate 8192 97) = List.replicate 8192 97 from rfl,
      List.length_replicate]
    decide
  ⟨h, (createEmbedding_token_limit stubEnv (List.replicate 8192 97) MODEL
    (NameArg.string (js "k")) emptyWorld h).2 (by decide)⟩

/-- Claim C3: write-once invariant. For every data directory, text, provider and key, after
`createEmbedding` every file that existed before the call still has exactly the same content
(hence the same vector), and `writeEmbeddingFile` is reached at most for the cache file of
the call's own truthy key, and only when that file did not exist at the existence check. -/
theorem createEmbedding_write_once {Num : Type} (env : Env Num) (input model : JSString)
    (nameArg : NameArg) (w : World) :
    (∀ f data, w.files f = some data →
      (createEmbedding env input model nameArg w).2.files f = some data) ∧
    ∃ new, (createEmbedding env input model nameArg w).2.written = w.written ++ new ∧
      ∀ f ∈ new, f = cacheFile env (bindName env input nameArg) ∧
        truthy (bindName env input nameArg) = true ∧ w.files f = none := by
  by_cases hhit : (truthy (bindName env input nameArg) &&
      «exists» (cacheFile env (bindName env input nameArg)) w) = true
  · rw [createEmbedding_hit env input model nameArg w hhit]
    exact ⟨fun f data h => h, [], by simp, by simp⟩
  · have hmiss : (truthy (bindName env input nameArg) &&
        «exists» (cacheFile env (bindName env input nameArg)) w) = false := by
      simpa using hhit
    unfold createEmbedding
    simp only [hmiss, Bool.false_eq_true, if_false]
    split
    · exact ⟨fun f data h => h, [], by simp, by simp⟩
    · split
      · exact ⟨fun f data h => h, [], by simp, by simp⟩
      · exact ⟨fun f data h => h, [], by simp, by simp⟩
      · split
        · exact ⟨fun f data h => h, [], by simp, by simp⟩
        · split
          · rename_i htruthy
            have hex : «exists» (cacheFile env (bindName env input nameArg)) w = false := by
              simpa [htruthy] using hmiss
            have hnone : w.files (cacheFile env (bindName env input nameArg)) = none := by
              simpa [«exists»] using hex
            simp only [writeEmbeddingFile, writeFile]
            refine ⟨fun f data h => ?_, [cacheFile env (bindName env input nameArg)], rfl, ?_⟩
            · have hne : f ≠ cacheFile env (bindName env input nameArg) := by
                intro e
                rw [e, hnone] at h
                cases h
              simp [hne, h]
            · intro f hf
              have : f = cacheFile env (bindName env input nameArg) := by simpa using hf
              subst this
              exact ⟨rfl, htruthy, hnone⟩
          · exact ⟨fun f data h => h, [], by simp, by simp⟩

/-! ## Idempotence of `createEmbedding`: claim C1 -/

/-- Counterexample to claim C1 as stated: with the empty string as explicit key nothing is
cached, so two calls in a row invoke the embeddings API twice and the second call returns the
API's second answer. -/
theorem createEmbedding_empty_key_twice :
    (createEmbedding stubEnv (js "cat") MODEL (NameArg.string [])
      (createEmbedding stubEnv (js "cat") MODEL (NameArg.string []) emptyWorld).2).2.providerCalls
      = 2 ∧
    (createEmbedding stubEnv (js "cat") MODEL (NameArg.string [])
      (createEmbedding stubEnv (js "cat") MODEL (NameArg.string []) emptyWorld).2).1
      = Outcome.resolved (Vector.array [1]) := by
  decide

/-- Claim C1, amended: for every text, provider and non-empty explicit key, if the first call
of `createEmbedding` returns a vector, then it invoked the embeddings API at most once, the
second call with the same key leaves the world unchanged (so it does not invoke the API and
the two calls together invoke it at most once), the key's cache file exists after the first
call, and when that file is not empty the second call returns the vector decoded from it. -/
theorem createEmbedding_idempotent {Num : Type} (env : Env Num) (input model : JSString)
    (key : JSString) (w : World) (v : Vector Num)
    (hkey : key ≠ [])
    (hfirst : (createEmbedding env input model (NameArg.string key) w).1 = Outcome.resolved v) :
    (createEmbedding env input model (NameArg.string key) w).2.providerCalls
      ≤ w.providerCalls + 1 ∧
    (createEmbedding env input model (NameArg.string key)
      (createEmbedding env input model (NameArg.string key) w).2).2
      = (createEmbedding env input model (NameArg.string key) w).2 ∧
    ∃ data,
      (createEmbedding env input model (NameArg.string key) w).2.files
        (cacheFile env (some key)) = some data ∧
      (data ≠ [] → ∃ words,
        float32ArrayOfBuffer data = some words ∧
        (createEmbedding env input model (NameArg.string key)
          (createEmbedding env input model (NameArg.string key) w).2).1
          = Outcome.resolved (Vector.float32Array words)) := by
  have htruthy : truthy (some key) = true := by
    cases key with
    | nil => exact absurd rfl hkey
    | cons c cs => rfl
  have hname : bindName env input (NameArg.string key) = some key := rfl
  -- a call on a world that has the cache file is a hit
  have hhit : ∀ (w1 : World) (data : List Nat),
      w1.files (cacheFile env (some key)) = some data →
      createEmbedding env input model (NameArg.string key) w1
        = (match readEmbeddingFile (cacheFile env (some key)) w1 with
            | Outcome.resolved array => Outcome.resolved (Vector.float32Array array)
            | Outcome.rejected e => Outcome.rejected e
            | Outcome.pending => Outcome.pending, w1) := by
    intro w1 data hfile
    exact createEmbedding_hit env input model (NameArg.string key) w1
      (by simp [hname, htruthy, «exists», hfile])
  -- after the first call the cache file exists, and decodes when it is not empty
  have hstate : (createEmbedding env input model (NameArg.string key) w).2.providerCalls
        ≤ w.providerCalls + 1 ∧
      ∃ data,
        (createEmbedding env input model (NameArg.string key) w).2.files
          (cacheFile env (some key)) = some data ∧
        (data ≠ [] → ∃ words, float32ArrayOfBuffer data = some words) := by
    by_cases hex : «exists» (cacheFile env (some key)) w = true
    · obtain ⟨data, hfile⟩ : ∃ data, w.files (cacheFile env (some key)) = some data := by
        simpa [«exists», Option.isSome_iff_exists] using hex
      have h1 := hhit w data hfile
      rw [h1] at hfirst ⊢
      refine ⟨Nat.le_succ _, data, hfile, fun hne => ?_⟩
      cases hdecode : float32ArrayOfBuffer data with
      | none =>
        rw [readEmbeddingFile_of_ne_nil _ w data hfile hne, hdecode] at hfirst
        cases hfirst
      | some words => exact ⟨words, rfl⟩
    · have hmiss : (truthy (bindName env input (NameArg.string key)) &&
          «exists» (cacheFile env (bindName env input (NameArg.string key))) w) = false := by
        simpa [hname, htruthy] using hex
      have hshape : ∀ r : Outcome (Vector Num) × World,
          r = createEmbedding env input model (NameArg.string key) w →
          r.1 = Outcome.resolved v →
          r.2.providerCalls ≤ w.providerCalls + 1 ∧
          ∃ words, r.2.files (cacheFile env (some key)) = some (bufferFrom words) := by
        intro r hr hres
        unfold createEmbedding at hr
        simp only [hmiss, Bool.false_eq_true, if_false] at hr
        split at hr
        · subst hr; cases hres
        · split at hr
          · subst hr; cases hres
          · subst hr; cases hres
          · split at hr
            · subst hr; cases hres
            · simp only [hname, htruthy, if_true, writeEmbeddingFile, writeFile] at hr
              subst hr
              exact ⟨Nat.le_refl _, _, if_pos rfl⟩
      obtain ⟨hcalls, words, hfile⟩ := hshape _ rfl hfirst
      exact ⟨hcalls, bufferFrom words, hfile, fun _ => ⟨_, float32ArrayOfBuffer_bufferFrom words⟩⟩
  obtain ⟨hcalls, data, hfile, hdecode⟩ := hstate
  have h2 := hhit _ data hfile
  refine ⟨hcalls, by rw [h2], data, hfile, fun hne => ?_⟩
  obtain ⟨words, hwords⟩ := hdecode hne
  refine ⟨words, hwords, ?_⟩
  rw [h2, readEmbeddingFile_of_ne_nil _ _ data hfile hne, hwords]

/-- Claim C1 (amended) at the key `cat` and an empty data directory. -/
theorem createEmbedding_idempotent_witness :
    js "cat" ≠ [] ∧
    (createEmbedding stubEnv (js "cat") MODEL (NameArg.string (js "cat")) emptyWorld).1
      = Outcome.resolved (Vector.array [0]) ∧
    (createEmbedding stubEnv (js "cat") MODEL (NameArg.string (js "cat"))
      (createEmbedding stubEnv (js "cat") MODEL (NameArg.string (js "cat")) emptyWorld).2).2
      = (createEmbedding stubEnv (js "cat") MODEL (NameArg.string (js "cat")) emptyWorld).2 :=
  ⟨by decide, by decide,
    (createEmbedding_idempotent stubEnv (js "cat") MODEL (js "cat") emptyWorld
      (Vector.array [0]) (by decide) (by decide)).2.1⟩

/-! ## The default key (claim C4) and sums of products of real vectors -/

theorem replaceWhiteSpace_eq_map (input : JSString) :
    replaceWhiteSpace input = input.map fun c => if isWhiteSpace c then 95 else c := by
  induction input with
  | nil => rfl
  | cons c rest ih => simp [replaceWhiteSpace, ih]

/-- Counterexample to claim C4 as stated: for the text `a  b` (two spaces) the default key is
`a__b`, whereas collapsing the run of whitespace gives `a_b`. -/
theorem defaultName_two_spaces :
    defaultName stubEnv (js "a  b") = js "a__b" ∧
    specDefaultName stubEnv (js "a  b") = js "a_b" ∧
    bindName stubEnv (js "a  b") NameArg.undefined ≠ some (specDefaultName stubEnv (js "a  b")) := by
  decide

/-- Claim C4, amended: for every input text the default cache key used by `createEmbedding` is
the text with each whitespace character (not each run) replaced by one underscore, position
by position and with the length unchanged, then lower-cased, then truncated to its first 20
code units. -/
theorem createEmbedding_default_key {Num : Type} (env : Env Num) (input model : JSString)
    (w : World) :
    createEmbedding env input model NameArg.undefined w =
      createEmbedding env input model
        (NameArg.string
          ((env.toLowerCase (input.map fun c => if isWhiteSpace c then 95 else c)).take 20)) w ∧
    (input.map fun c => if isWhiteSpace c then 95 else c).length = input.length ∧
    (∀ (i c : Nat), input[i]? = some c →
      (input.map fun c => if isWhiteSpace c then 95 else c)[i]? =
        some (if isWhiteSpace c then 95 else c)) ∧
    ((env.toLowerCase (input.map fun c => if isWhiteSpace c then 95 else c)).take 20).length
      ≤ 20 := by
  refine ⟨?_, by simp, ?_, by simp⟩
  · unfold createEmbedding
    simp only [bindName, defaultName, replaceWhiteSpace_eq_map]
  · intro i c h
    simp [h]

section Real

theorem mmulTranspose_eq_sum {R : Type} [Field R] (vec1 vec2 : List R) :
    mmulTranspose vec1 vec2 = (List.zipWith (fun a b => a * b) vec1 vec2).sum := by
  unfold mmulTranspose
  rw [List.sum_eq_foldl]

theorem zipWith_self_sum_nonneg (v : List ℝ) :
    0 ≤ (List.zipWith (fun a b => a * b) v v).sum := by
  induction v with
  | nil => simp
  | cons x rest ih =>
    simp only [List.zipWith_cons_cons, List.sum_cons]
    nlinarith [mul_self_nonneg x]

theorem zipWith_self_sum_pos (v : List ℝ) (h : ∃ x ∈ v, x ≠ 0) :
    0 < (List.zipWith (fun a b => a * b) v v).sum := by
  induction v with
  | nil => simp at h
  | cons x rest ih =>
    simp only [List.zipWith_cons_cons, List.sum_cons]
    have hrest := zipWith_self_sum_nonneg rest
    by_cases hx : x = 0
    · subst hx
      have : ∃ y ∈ rest, y ≠ 0 := by
        obtain ⟨y, hy, hy0⟩ := h
        rcases List.mem_cons.mp hy with rfl | hmem
        · exact absurd rfl hy0
        · exact ⟨y, hmem, hy0⟩
      have := ih this
      linarith
    · have : 0 < x * x := mul_self_pos.mpr hx
      linarith

theorem zipWith_neg_sum (v : List ℝ) :
    (List.zipWith (fun a b => a * b) v (v.map fun x => -x)).sum =
      -(List.zipWith (fun a b => a * b) v v).sum := by
  induction v with
  | nil => simp
  | cons x rest ih =>
    simp only [List.map_cons, List.zipWith_cons_cons, List.sum_cons, ih]
    ring

theorem zipWith_neg_neg_sum (v : List ℝ) :
    (List.zipWith (fun a b => a * b) (v.map fun x => -x) (v.map fun x => -x)).sum =
      (List.zipWith (fun a b => a * b) v v).sum := by
  induction v with
  | nil => simp
  | cons x rest ih =>
    simp only [List.map_cons, List.zipWith_cons_cons, List.sum_cons, ih]
    ring

/-- Cauchy-Schwarz for the row products. -/
theorem zipWith_sum_sq_le (a b : List ℝ) :
    (List.zipWith (fun x y => x * y) a b).sum ^ 2 ≤
      (List.zipWith (fun x y => x * y) a a).sum * (List.zipWith (fun x y => x * y) b b).sum := by
  induction a generalizing b with
  | nil =>
    simp
  | cons x rest ih =>
    cases b with
    | nil =>
      simp only [List.zipWith_nil_right, List.sum_nil, List.zipWith_nil_left]
      simp
    | cons y rest2 =>
      simp only [List.zipWith_cons_cons, List.sum_cons]
      have h := ih rest2
      have ha := zipWith_self_sum_nonneg rest
      have hb := zipWith_self_sum_nonneg rest2
      set sab := (List.zipWith (fun x y => x * y) rest rest2).sum
      set saa := (List.zipWith (fun x y => x * y) rest rest).sum
      set sbb := (List.zipWith (fun x y => x * y) rest2 rest2).sum
      -- 2 * sab * x * y ≤ saa * y^2 + sbb * x^2
      have key : 2 * (sab * (x * y)) ≤ saa * (y * y) + sbb * (x * x) := by
        have hsq : (2 * (sab * (x * y))) ^ 2 ≤ (saa * (y * y) + sbb * (x * x)) ^ 2 := by
          have h1 : (2 * (sab * (x * y))) ^ 2 = 4 * sab ^ 2 * (x * y) ^ 2 := by ring
          have h2 : 4 * sab ^ 2 * (x * y) ^ 2 ≤ 4 * (saa * sbb) * (x * y) ^ 2 := by
            have : 0 ≤ (x * y) ^ 2 := sq_nonneg _
            nlinarith
          have h3 : 4 * (saa * sbb) * (x * y) ^ 2 ≤ (saa * (y * y) + sbb * (x * x)) ^ 2 := by
            nlinarith [sq_nonneg (saa * (y * y) - sbb * (x * x))]
          linarith
        have hnn : 0 ≤ saa * (y * y) + sbb * (x * x) := by
          have := mul_self_nonneg x
          have := mul_self_nonneg y
          positivity
        exact (abs_le_of_sq_le_sq' hsq hnn).2
      nlinarith

end Real

/-! ## Cosine similarity: claims C7 and C8 -/

/-- Counterexample to claim C7 as stated: for the all-zero vector the quotient divides zero by
zero, so `cosine_similarity(v, v)` has no value and is not 1. -/
theorem cosine_similarity_zero_vector :
    cosine_similarity Real.sqrt ([0, 0] : List ℝ) [0, 0] = none ∧
    cosine_similarity Real.sqrt ([0, 0] : List ℝ) [0, 0] ≠ some 1 := by
  have h : cosine_similarity Real.sqrt ([0, 0] : List ℝ) [0, 0] = none := by
    simp [cosine_similarity, mmulTranspose, divide]
  rw [h]
  simp

/-- Claim C7, amended: for every vector `v` with at least one non-zero element, over exact real
arithmetic `cosine_similarity(v, v)` equals 1 and `cosine_similarity(v, -v)` equals -1. -/
theorem cosine_similarity_self (v : List ℝ) (hv : ∃ x ∈ v, x ≠ 0) :
    cosine_similarity Real.sqrt v v = some 1 ∧
    cosine_similarity Real.sqrt v (v.map fun x => -x) = some (-1) := by
  have hpos := zipWith_self_sum_pos v hv
  have hsqrt : Real.sqrt (List.zipWith (fun a b => a * b) v v).sum *
      Real.sqrt (List.zipWith (fun a b => a * b) v v).sum =
      (List.zipWith (fun a b => a * b) v v).sum := Real.mul_self_sqrt hpos.le
  have hne : (List.zipWith (fun a b => a * b) v v).sum ≠ 0 := hpos.ne'
  constructor
  · simp only [cosine_similarity, mmulTranspose_eq_sum, divide, hsqrt, hne, if_false]
    rw [div_self hne]
  · simp only [cosine_similarity, mmulTranspose_eq_sum, divide, zipWith_neg_sum,
      zipWith_neg_neg_sum, hsqrt, hne, if_false]
    rw [neg_div, div_self hne]

/-- Claim C7 (amended) at the vector `(3, 4)`. -/
theorem cosine_similarity_self_witness :
    (∃ x ∈ ([3, 4] : List ℝ), x ≠ 0) ∧
    cosine_similarity Real.sqrt ([3, 4] : List ℝ) [3, 4] = some 1 ∧
    cosine_similarity Real.sqrt ([3, 4] : List ℝ) [-3, -4] = some (-1) :=
  have h : ∃ x ∈ ([3, 4] : List ℝ), x ≠ 0 := ⟨3, by simp, by norm_num⟩
  ⟨h, (cosine_similarity_self [3, 4] h).1, by simpa using (cosine_similarity_self [3, 4] h).2⟩

/-- Claim C8: for every pair of equal-length real vectors with non-zero norms,
`cosine_similarity(vecA, vecB)` equals `dot(vecA, vecB) / (sqrt(dot(vecA, vecA)) *
sqrt(dot(vecB, vecB)))`, and this value lies in the closed interval from -1 to 1. -/
theorem cosine_similarity_formula_and_bounds (vecA vecB : List ℝ)
    (_hlen : vecA.length = vecB.length)
    (hA : Real.sqrt (List.zipWith (fun a b => a * b) vecA vecA).sum ≠ 0)
    (hB : Real.sqrt (List.zipWith (fun a b => a * b) vecB vecB).sum ≠ 0) :
    cosine_similarity Real.sqrt vecA vecB =
      some ((List.zipWith (fun a b => a * b) vecA vecB).sum /
        (Real.sqrt (List.zipWith (fun a b => a * b) vecA vecA).sum *
          Real.sqrt (List.zipWith (fun a b => a * b) vecB vecB).sum)) ∧
    -1 ≤ (List.zipWith (fun a b => a * b) vecA vecB).sum /
        (Real.sqrt (List.zipWith (fun a b => a * b) vecA vecA).sum *
          Real.sqrt (List.zipWith (fun a b => a * b) vecB vecB).sum) ∧
    (List.zipWith (fun a b => a * b) vecA vecB).sum /
        (Real.sqrt (List.zipWith (fun a b => a * b) vecA vecA).sum *
          Real.sqrt (List.zipWith (fun a b => a * b) vecB vecB).sum) ≤ 1 := by
  have hden : Real.sqrt (List.zipWith (fun a b => a * b) vecA vecA).sum *
      Real.sqrt (List.zipWith (fun a b => a * b) vecB vecB).sum ≠ 0 := mul_ne_zero hA hB
  have hdenpos : 0 < Real.sqrt (List.zipWith (fun a b => a * b) vecA vecA).sum *
      Real.sqrt (List.zipWith (fun a b => a * b) vecB vecB).sum :=
    lt_of_le_of_ne (mul_nonneg (Real.sqrt_nonneg _) (Real.sqrt_nonneg _)) (Ne.symm hden)
  have habs : |(List.zipWith (fun a b => a * b) vecA vecB).sum| ≤
      Real.sqrt (List.zipWith (fun a b => a * b) vecA vecA).sum *
        Real.sqrt (List.zipWith (fun a b => a * b) vecB vecB).sum := by
    rw [← Real.sqrt_mul (zipWith_self_sum_nonneg vecA)]
    exact Real.abs_le_sqrt (zipWith_sum_sq_le vecA vecB)
  obtain ⟨hlo, hhi⟩ := abs_le.mp habs
  refine ⟨?_, ?_, ?_⟩
  · simp only [cosine_similarity, mmulTranspose_eq_sum, divide, hden, if_false]
  · rw [le_div_iff₀ hdenpos]
    linarith
  · rw [div_le_one hdenpos]
    exact hhi

/-- Claim C8 at two orthogonal unit vectors. -/
theorem cosine_similarity_formula_and_bounds_witness :
    ([1, 0] : List ℝ).length = ([0, 1] : List ℝ).length ∧
    cosine_similarity Real.sqrt ([1, 0] : List ℝ) [0, 1] = some 0 := by
  have h := (cosine_similarity_formula_and_bounds [1, 0] [0, 1] rfl
    (by simp) (by simp)).1
  exact ⟨rfl, by simpa using h⟩

/-! ## Degenerate ranges: claim C9 -/

section Chart

variable {R : Type} [LinearOrderedField R]

theorem foldl_max_const (c : R) (values : List R) (h : ∀ v ∈ values, v = c) :
    values.foldl max c = c := by
  induction values with
  | nil => rfl
  | cons v rest ih =>
    have hv : v = c := h v (List.mem_cons_self _ _)
    simp only [List.foldl_cons, hv, max_self]
    exact ih fun u hu => h u (List.mem_cons_of_mem _ hu)

theorem foldl_min_const (c : R) (values : List R) (h : ∀ v ∈ values, v = c) :
    values.foldl min c = c := by
  induction values with
  | nil => rfl
  | cons v rest ih =>
    have hv : v = c := h v (List.mem_cons_self _ _)
    simp only [List.foldl_cons, hv, min_self]
    exact ih fun u hu => h u (List.mem_cons_of_mem _ hu)

theorem mathMax_const (c : R) (values : List R) (hne : values ≠ [])
    (h : ∀ v ∈ values, v = c) : mathMax values = some c := by
  cases values with
  | nil => exact absurd rfl hne
  | cons v rest =>
    have hv : v = c := h v (List.mem_cons_self _ _)
    simp only [mathMax, hv]
    rw [foldl_max_const c rest fun u hu => h u (List.mem_cons_of_mem _ hu)]

theorem mathMin_const (c : R) (values : List R) (hne : values ≠ [])
    (h : ∀ v ∈ values, v = c) : mathMin values = some c := by
  cases values with
  | nil => exact absurd rfl hne
  | cons v rest =>
    have hv : v = c := h v (List.mem_cons_self _ _)
    simp only [mathMin, hv]
    rw [foldl_min_const c rest fun u hu => h u (List.mem_cons_of_mem _ hu)]

theorem pixel_degenerate (value c toMax scale : R) :
    pixel value (some c) (some c) toMax scale = none := by
  simp [pixel, rangeToRange, divide]

/-- Claim C9, amended: for every non-empty batch of points that all share the same y value,
`min.y` equals `max.y` and the y pixel `graph` computes for a point divides by zero
(`fromMax - fromMin = 0`), so it has no numeric value; the same holds for x when all points
share the same x value. -/
theorem dataPoint_degenerate (s : Settings R) (data : List (Datum R)) (d : Datum R) (c : R)
    (hne : data ≠ []) :
    ((∀ p ∈ data, p.y = c) →
      mathMin (data.map fun p => p.y) = mathMax (data.map fun p => p.y) ∧
      (dataPoint s data d).y = none) ∧
    ((∀ p ∈ data, p.x = c) →
      mathMin (data.map fun p => p.x) = mathMax (data.map fun p => p.x) ∧
      (dataPoint s data d).x = none) := by
  have hmap : ∀ f : Datum R → R, data.map f ≠ [] := fun f => by simpa using hne
  constructor
  · intro h
    have hall : ∀ v ∈ data.map (fun p => p.y), v = c := by
      intro v hv
      obtain ⟨p, hp, rfl⟩ := List.mem_map.mp hv
      exact h p hp
    have hmax := mathMax_const c _ (hmap _) hall
    have hmin := mathMin_const c _ (hmap _) hall
    exact ⟨by rw [hmax, hmin], by simp only [dataPoint, hmax, hmin, pixel_degenerate]⟩
  · intro h
    have hall : ∀ v ∈ data.map (fun p => p.x), v = c := by
      intro v hv
      obtain ⟨p, hp, rfl⟩ := List.mem_map.mp hv
      exact h p hp
    have hmax := mathMax_const c _ (hmap _) hall
    have hmin := mathMin_const c _ (hmap _) hall
    exact ⟨by rw [hmax, hmin], by simp only [dataPoint, hmax, hmin, pixel_degenerate]⟩

end Chart

/-- Counterexample to claim C9 as stated: for two points sharing `y = 5` and the default
settings, the y pixel is the outcome of a division by zero and not the midpoint 380. -/
theorem dataPoint_same_y_no_midpoint :
    (dataPoint ({} : Settings ℚ) [{ x := 0, y := 5 }, { x := 1, y := 5 }] { x := 1, y := 5 }).y
      = none ∧
    (dataPoint ({} : Settings ℚ) [{ x := 0, y := 5 }, { x := 1, y := 5 }] { x := 1, y := 5 }).y
      ≠ some ((20 + (400 - 20 * 2)) / 2 * 2) := by
  have h : (dataPoint ({} : Settings ℚ) [{ x := 0, y := 5 }, { x := 1, y := 5 }]
      { x := 1, y := 5 }).y = none := by
    simp [dataPoint, pixel, rangeToRange, divide, mathMin, mathMax]
  rw [h]
  simp

/-- Claim C9 (amended) at two points sharing `y = 5`. -/
theorem dataPoint_degenerate_witness :
    ([{ x := 0, y := 5 }, { x := 1, y := 5 }] : List (Datum ℚ)) ≠ [] ∧
    (∀ p ∈ ([{ x := 0, y := 5 }, { x := 1, y := 5 }] : List (Datum ℚ)), p.y = 5) ∧
    (dataPoint ({} : Settings ℚ) [{ x := 0, y := 5 }, { x := 1, y := 5 }] { x := 1, y := 5 }).y
      = none :=
  have hy : ∀ p ∈ ([{ x := 0, y := 5 }, { x := 1, y := 5 }] : List (Datum ℚ)), p.y = 5 := by
    simp
  ⟨by simp, hy,
    ((dataPoint_degenerate ({} : Settings ℚ) [{ x := 0, y := 5 }, { x := 1, y := 5 }]
      { x := 1, y := 5 } 5 (by simp)).1 hy).2⟩

/-! ## Line mode: claim C10 -/

section Line

variable {R : Type} [LinearOrderedField R]

theorem js_line_ne_scatter : js "line" ≠ js "scatter" := by decide

/-- In line mode, past the first element, every element of the first loop strokes one segment
from its own point to the previous one, and nothing is filled. -/
theorem firstLoop_line (lib : CanvasLib R) (s : Settings R) (data : List (Datum R))
    (htype : s.type = js "line") (rest : List (Datum R)) (i : Nat) (last : Point R) :
    (firstLoop lib s data (i + 1) rest (some last)).count Op.stroke = rest.length ∧
    (firstLoop lib s data (i + 1) rest (some last)).count Op.fill = 0 ∧
    arcCentres (firstLoop lib s data (i + 1) rest (some last)) = [] ∧
    moveTargets (firstLoop lib s data (i + 1) rest (some last))
      = linePointsFrom s data (i + 1) rest ∧
    lineTargets (firstLoop lib s data (i + 1) rest (some last))
      = (last :: linePointsFrom s data (i + 1) rest).dropLast := by
  induction rest generalizing i last with
  | nil => simp [firstLoop, arcCentres, moveTargets, lineTargets, linePointsFrom]
  | cons d rest ih =>
    obtain ⟨h1, h2, h3, h4, h5⟩ := ih (i + 1) (linePoint s data (i + 1) d)
    unfold arcCentres moveTargets lineTargets at *
    simp only [firstLoop, htype, js_line_ne_scatter, if_false, if_true]
    simp [List.count_cons, h1, h2, h3, h4, h5, linePointsFrom, List.enumFrom_cons]

/-- The second loop draws one dot per element and strokes nothing. -/
theorem secondLoop_line (lib : CanvasLib R) (s : Settings R) (data : List (Datum R))
    (rest : List (Datum R)) (i : Nat) :
    (secondLoop lib s data i rest).count Op.stroke = 0 ∧
    (secondLoop lib s data i rest).count Op.fill = rest.length ∧
    arcCentres (secondLoop lib s data i rest) = linePointsFrom s data i rest ∧
    moveTargets (secondLoop lib s data i rest) = [] ∧
    lineTargets (secondLoop lib s data i rest) = [] := by
  induction rest generalizing i with
  | nil => simp [secondLoop, arcCentres, moveTargets, lineTargets, linePointsFrom]
  | cons d rest ih =>
    obtain ⟨h1, h2, h3, h4, h5⟩ := ih (i + 1)
    unfold arcCentres moveTargets lineTargets at *
    simp [secondLoop, List.count_cons, h1, h2, h3, h4, h5, linePointsFrom, List.enumFrom_cons]

end Line

section Line2

variable {R : Type} [LinearOrderedField R]

omit [LinearOrderedField R] in
theorem stroke_before_fill_of_append (A B : List (Op R)) (hA : Op.fill ∉ A)
    (hB : Op.stroke ∉ B) (i j : Nat) (hi : (A ++ B)[i]? = some Op.stroke)
    (hj : (A ++ B)[j]? = some Op.fill) : i < j := by
  by_contra hcon
  have hji : j ≤ i := not_lt.mp hcon
  by_cases hiA : i < A.length
  · have hjA : j < A.length := lt_of_le_of_lt hji hiA
    rw [List.getElem?_append_left hjA] at hj
    exact hA (List.getElem?_mem hj)
  · rw [List.getElem?_append_right (not_lt.mp hiA)] at hi
    exact hB (List.getElem?_mem hi)

theorem linePointsFrom_length (s : Settings R) (data rest : List (Datum R)) (i : Nat) :
    (linePointsFrom s data i rest).length = rest.length := by
  simp [linePointsFrom]

theorem linePointsFrom_getElem? (s : Settings R) (data rest : List (Datum R)) (i k : Nat)
    (d : Datum R) (h : rest[k]? = some d) :
    (linePointsFrom s data i rest)[k]? = some (linePoint s data (i + k) d) := by
  simp [linePointsFrom, List.getElem?_enumFrom, h]

/-- In line mode the first loop, started as `graph` starts it, strokes `N - 1` segments. -/
theorem firstLoop_line_start (lib : CanvasLib R) (s : Settings R) (data : List (Datum R))
    (htype : s.type = js "line") (rest : List (Datum R)) :
    (firstLoop lib s data 0 rest none).count Op.stroke = rest.length - 1 ∧
    (firstLoop lib s data 0 rest none).count Op.fill = 0 ∧
    arcCentres (firstLoop lib s data 0 rest none) = [] ∧
    moveTargets (firstLoop lib s data 0 rest none) = (linePointsFrom s data 0 rest).tail ∧
    lineTargets (firstLoop lib s data 0 rest none)
      = (linePointsFrom s data 0 rest).dropLast := by
  cases rest with
  | nil => simp [firstLoop, arcCentres, moveTargets, lineTargets, linePointsFrom]
  | cons d rest =>
    obtain ⟨h1, h2, h3, h4, h5⟩ := firstLoop_line lib s data htype rest 0 (linePoint s data 0 d)
    unfold arcCentres moveTargets lineTargets at *
    simp only [firstLoop, htype, js_line_ne_scatter, if_false, if_true]
    simp [List.count_cons, h1, h2, h3, h4, h5, linePointsFrom, List.enumFrom_cons]

/-- Claim C10: in line mode with `N` points, `graph` strokes exactly `N - 1` times and fills
exactly `N` times, every stroke comes before every fill in the list of operations, the
segments go from the position of point `i` (`moveTo`) to that of point `i - 1` (`lineTo`) for
`i = 1 .. N - 1`, dot `i` is centred at the same position as the segment end point of point
`i`, and the x of that position is computed from the index `i`, `N` and the settings only. -/
theorem graphCanvas_line_mode (lib : CanvasLib R) (s : Settings R) (data : List (Datum R))
    (htype : s.type = js "line") :
    (graphCanvas lib data s).count Op.stroke = data.length - 1 ∧
    (graphCanvas lib data s).count Op.fill = data.length ∧
    (∀ (i j : Nat), (graphCanvas lib data s)[i]? = some Op.stroke →
      (graphCanvas lib data s)[j]? = some Op.fill → i < j) ∧
    moveTargets (graphCanvas lib data s) = (linePoints s data).tail ∧
    lineTargets (graphCanvas lib data s) = (linePoints s data).dropLast ∧
    arcCentres (graphCanvas lib data s) = linePoints s data ∧
    (linePoints s data).length = data.length ∧
    ∀ (i : Nat) (d : Datum R), data[i]? = some d →
      (linePoints s data)[i]? = some
        { x := some ((((i : R) - 0) * (s.width - 20 * 2 - 20) / ((data.length : R) - 0) + 20 + 0)
            * s.scale)
          y := (dataPoint s data d).y } := by
  obtain ⟨f1, f2, f3, f4, f5⟩ := firstLoop_line_start lib s data htype data
  obtain ⟨g1, g2, g3, g4, g5⟩ := secondLoop_line lib s data data 0
  have hsplit : graphCanvas lib data s =
      ([Op.fillStyle s.background, Op.fillRect 0 0 (s.width * s.scale) (s.height * s.scale)] ++
        firstLoop lib s data 0 data none) ++
      (secondLoop lib s data 0 data ++
        (if truthy s.header then
          [Op.globalAlpha 1, Op.textAlign (js "left"), Op.fillStyle (js "#000000"),
            Op.textBaseline (js "top"), Op.font (20 * s.scale),
            Op.fillText (s.header.getD []) (some padding) (some padding)]
        else [])) := by
    simp [graphCanvas, htype]
  refine ⟨?_, ?_, ?_, ?_, ?_, ?_, linePointsFrom_length s data data 0, ?_⟩
  · rw [hsplit]
    by_cases hh : truthy s.header = true <;>
      simp [hh, List.count_append, List.count_cons, f1, g1]
  · rw [hsplit]
    by_cases hh : truthy s.header = true <;>
      simp [hh, List.count_append, List.count_cons, f2, g2]
  · intro i j hi hj
    rw [hsplit] at hi hj
    refine stroke_before_fill_of_append _ _ ?_ ?_ i j hi hj
    · rw [← List.count_eq_zero]
      simp [List.count_append, List.count_cons, f2]
    · rw [← List.count_eq_zero]
      by_cases hh : truthy s.header = true <;>
        simp [hh, List.count_append, List.count_cons, g1]
  · rw [hsplit]
    unfold moveTargets at *
    by_cases hh : truthy s.header = true <;> simp [hh, f4, g4, linePoints]
  · rw [hsplit]
    unfold lineTargets at *
    by_cases hh : truthy s.header = true <;> simp [hh, f5, g5, linePoints]
  · rw [hsplit]
    unfold arcCentres at *
    by_cases hh : truthy s.header = true <;> simp [hh, f3, g3, linePoints]
  · intro i d h
    have hlen : i < data.length := by
      by_contra hcon
      rw [List.getElem?_eq_none (not_lt.mp hcon)] at h
      cases h
    have hN : ((data.length : R) - 0) ≠ 0 := by
      have : (0 : R) < (data.length : R) := by exact_mod_cast (lt_of_le_of_lt (Nat.zero_le i) hlen)
      simpa using this.ne'
    rw [linePoints, linePointsFrom_getElem? s data data 0 i d h]
    simp only [linePoint, indexPixel, rangeToRange, divide, hN, if_false, Option.map_some',
      padding, Nat.zero_add]

end Line2

/-- Claim C10 at three points over the rationals. -/
theorem graphCanvas_line_mode_witness :
    ({ type := js "line" } : Settings ℚ).type = js "line" ∧
    (graphCanvas stubCanvas [{ x := 0, y := 5 }, { x := 1, y := 7 }, { x := 3, y := 6 }]
      { type := js "line" }).count Op.stroke = 2 ∧
    (graphCanvas stubCanvas [{ x := 0, y := 5 }, { x := 1, y := 7 }, { x := 3, y := 6 }]
      { type := js "line" }).count Op.fill = 3 :=
  ⟨rfl,
    (graphCanvas_line_mode stubCanvas { type := js "line" }
      [{ x := 0, y := 5 }, { x := 1, y := 7 }, { x := 3, y := 6 }] rfl).1,
    (graphCanvas_line_mode stubCanvas { type := js "line" }
      [{ x := 0, y := 5 }, { x := 1, y := 7 }, { x := 3, y := 6 }] rfl).2.1⟩

end Embedding
